import Mathlib

/-!
Verification of the multi-agent USMLE vignette platform
(`app.py`, `authentication.py`, `db.py`, `openai_utils.py`).

The conversation data, the artifact extraction of `generate_usmle_vignette`,
the group-chat configuration, the Streamlit page control flow and the SQLite
persistence layer are embedded shallowly; machine-level details of the
external services (OpenAI, Streamlit rendering) are abstracted as opaque
reply functions and event traces.
-/

/-- A chat message as stored by `update_chat_display` in
`st.session_state.messages`: a dict with keys `sender` and `content`. -/
structure Msg where
  sender : String
  content : String
deriving DecidableEq

/-- `update_chat_display(sender, message)` appends
`{"sender": sender, "content": message}` to `st.session_state.messages`
(the Streamlit rendering side effect is not modelled). -/
def update_chat_display (msgs : List Msg) (sender message : String) : List Msg :=
  msgs ++ [⟨sender, message⟩]

/-! ### json.dumps string escaping (ensure_ascii=True, the Python default) -/

/-- Lower-case hex digit for `n < 16`, as produced by Python `%04x`. -/
def hexDigitChar (n : Nat) : Char :=
  if n < 10 then Char.ofNat (48 + n) else Char.ofNat (87 + n)

/-- The four hex digits of `n < 0x10000`, as produced by Python `\u%04x`. -/
def hex4 (n : Nat) : List Char :=
  [hexDigitChar (n / 4096 % 16), hexDigitChar (n / 256 % 16),
   hexDigitChar (n / 16 % 16), hexDigitChar (n % 16)]

/-- Escape one character the way `json.dumps` (with the default
`ensure_ascii=True`) escapes it: the seven short escapes, printable ASCII
kept literal, `\uXXXX` for other characters below `0x10000`, and a
surrogate pair for characters at `0x10000` and above. -/
def escapeChar (c : Char) : List Char :=
  if c = '"' then ['\\', '"']
  else if c = '\\' then ['\\', '\\']
  else if c = '\x08' then ['\\', 'b']
  else if c = '\x0c' then ['\\', 'f']
  else if c = '\n' then ['\\', 'n']
  else if c = '\r' then ['\\', 'r']
  else if c = '\t' then ['\\', 't']
  else if 0x20 ≤ c.toNat ∧ c.toNat ≤ 0x7e then [c]
  else if c.toNat < 0x10000 then '\\' :: 'u' :: hex4 c.toNat
  else
    '\\' :: 'u' :: hex4 (0xD800 + (c.toNat - 0x10000) / 0x400) ++
      '\\' :: 'u' :: hex4 (0xDC00 + (c.toNat - 0x10000) % 0x400)

/-- Escape every character of a string body. -/
def escapeList : List Char → List Char
  | [] => []
  | c :: cs => escapeChar c ++ escapeList cs

/-- Fixed text of one serialized message up to the opening quote of the
`sender` value, as laid out by `json.dumps(..., indent=2)`. -/
def itemHeadL : List Char := "  \x7b\n    \"sender\": \"".data

/-- Fixed text between the `sender` value and the `content` value. -/
def sepL : List Char := ",\n    \"content\": \"".data

/-- Fixed text closing one serialized message. -/
def itemEndL : List Char := "\n  \x7d".data

/-- One message rendered by `json.dumps(..., indent=2)`. -/
def dumpsMsgL (m : Msg) : List Char :=
  itemHeadL ++ escapeList m.sender.data ++ '"' :: sepL ++
    escapeList m.content.data ++ '"' :: itemEndL

/-- The comma-newline separated items of a nonempty message list. -/
def dumpsListL (m : Msg) : List Msg → List Char
  | [] => dumpsMsgL m
  | m2 :: ms => dumpsMsgL m ++ ',' :: '\n' :: dumpsListL m2 ms

/-- `json.dumps(st.session_state.messages, indent=2)`: the conversation
rendered as a JSON array of `\x7b"sender", "content"\x7d` objects. -/
def dumpsConversationL : List Msg → List Char
  | [] => ['[', ']']
  | m :: ms => '[' :: '\n' :: dumpsListL m ms ++ '\n' :: [']']

/-- The conversation JSON string stored in the returned triple. -/
def dumpsConversation (msgs : List Msg) : String :=
  String.mk (dumpsConversationL msgs)

/-- `json.dumps(\x7b"error": str(e)\x7d)`: the conversation field produced on
the exception path of `generate_usmle_vignette`. -/
def dumpsErrorObj (e : String) : String :=
  String.mk ("\x7b\"error\": \"".data ++ escapeList e.data ++ '"' :: "\x7d".data)

/-! ### A deserializer inverting the serialization above -/

/-- Value of a lower-case hex digit. -/
def hexVal (c : Char) : Option Nat :=
  if '0' ≤ c ∧ c ≤ '9' then some (c.toNat - 48)
  else if 'a' ≤ c ∧ c ≤ 'f' then some (c.toNat - 87)
  else none

/-- Read four hex digits. -/
def readHex4 : List Char → Option (Nat × List Char)
  | c1 :: c2 :: c3 :: c4 :: rest =>
    match hexVal c1, hexVal c2, hexVal c3, hexVal c4 with
    | some a, some b, some c, some d => some (((a * 16 + b) * 16 + c) * 16 + d, rest)
    | _, _, _, _ => none
  | _ => none

/-- Invert the seven short escapes. -/
def unescapeShort (e : Char) : Option Char :=
  if e = '"' then some '"'
  else if e = '\\' then some '\\'
  else if e = 'b' then some '\x08'
  else if e = 'f' then some '\x0c'
  else if e = 'n' then some '\n'
  else if e = 'r' then some '\r'
  else if e = 't' then some '\t'
  else none

/-- Prepend a decoded character to a string-body parse result. -/
def consCharResult (c : Char) : Option (List Char × List Char) → Option (List Char × List Char)
  | none => none
  | some (s, r) => some (c :: s, r)

/-- Read an escaped JSON string body up to and including the closing quote,
returning the decoded body and the remaining input.  `fuel` bounds the
number of decoded characters. -/
def readJStringAux : Nat → List Char → Option (List Char × List Char)
  | 0, _ => none
  | _ + 1, [] => none
  | fuel + 1, c :: rest =>
    if c = '"' then some ([], rest)
    else if c = '\\' then
      match rest with
      | [] => none
      | e :: r2 =>
        if e = 'u' then
          match readHex4 r2 with
          | none => none
          | some hr =>
            if 0xD800 ≤ hr.1 ∧ hr.1 < 0xDC00 then
              match hr.2 with
              | b1 :: b2 :: r4 =>
                if b1 = '\\' ∧ b2 = 'u' then
                  match readHex4 r4 with
                  | none => none
                  | some lr =>
                    if 0xDC00 ≤ lr.1 ∧ lr.1 < 0xE000 then
                      consCharResult
                        (Char.ofNat (0x10000 + (hr.1 - 0xD800) * 0x400 + (lr.1 - 0xDC00)))
                        (readJStringAux fuel lr.2)
                    else none
                else none
              | _ => none
            else consCharResult (Char.ofNat hr.1) (readJStringAux fuel hr.2)
        else
          match unescapeShort e with
          | none => none
          | some c2 => consCharResult c2 (readJStringAux fuel r2)
    else consCharResult c (readJStringAux fuel rest)

/-- Consume an expected literal piece of text. -/
def expects : List Char → List Char → Option (List Char)
  | [], l => some l
  | _ :: _, [] => none
  | p :: ps, c :: cs => if c = p then expects ps cs else none

/-- Parse one serialized message object. -/
def parseMsg (l : List Char) : Option (Msg × List Char) :=
  Option.bind (expects itemHeadL l) (fun l1 =>
  Option.bind (readJStringAux l1.length l1) (fun p1 =>
  Option.bind (expects sepL p1.2) (fun l3 =>
  Option.bind (readJStringAux l3.length l3) (fun p2 =>
  Option.bind (expects itemEndL p2.2) (fun l5 =>
  some (⟨String.mk p1.1, String.mk p2.1⟩, l5))))))

/-- Parse the comma-separated items followed by the closing `]`. -/
def parseItems : Nat → List Char → Option (List Msg)
  | 0, _ => none
  | fuel + 1, l =>
    Option.bind (parseMsg l) (fun p =>
      match p.2 with
      | c1 :: c2 :: l3 =>
        if c1 = ',' ∧ c2 = '\n' then Option.map (fun ms => p.1 :: ms) (parseItems fuel l3)
        else if c1 = '\n' ∧ c2 = ']' ∧ l3 = [] then some [p.1]
        else none
      | _ => none)

/-- Deserialize a conversation JSON string produced by `dumpsConversation`. -/
def deserializeConversation (s : String) : Option (List Msg) :=
  match s.data with
  | [] => none
  | c1 :: rest1 =>
    if c1 = '[' then
      match rest1 with
      | [] => none
      | c2 :: rest2 =>
        if c2 = ']' ∧ rest2 = [] then some []
        else if c2 = '\n' then parseItems rest2.length rest2
        else none
    else none

/-! ### Round-trip of the string escaping -/

theorem hexVal_hexDigitChar (n : Nat) (h : n < 16) : hexVal (hexDigitChar n) = some n := by
  interval_cases n <;> decide

theorem readHex4_hex4 (n : Nat) (h : n < 65536) (rest : List Char) :
    readHex4 (hex4 n ++ rest) = some (n, rest) := by
  have h1 : n / 4096 % 16 < 16 := Nat.mod_lt _ (by norm_num)
  have h2 : n / 256 % 16 < 16 := Nat.mod_lt _ (by norm_num)
  have h3 : n / 16 % 16 < 16 := Nat.mod_lt _ (by norm_num)
  have h4 : n % 16 < 16 := Nat.mod_lt _ (by norm_num)
  simp only [hex4, List.cons_append, List.nil_append, readHex4,
    hexVal_hexDigitChar _ h1, hexVal_hexDigitChar _ h2,
    hexVal_hexDigitChar _ h3, hexVal_hexDigitChar _ h4]
  congr 1
  congr 1
  omega

theorem readJ_quote (fuel : Nat) (T : List Char) :
    readJStringAux (fuel + 1) ('"' :: T) = some ([], T) := rfl

theorem readJ_escq (fuel : Nat) (T : List Char) :
    readJStringAux (fuel + 1) ('\\' :: '"' :: T) =
      consCharResult '"' (readJStringAux fuel T) := rfl

theorem readJ_escb (fuel : Nat) (T : List Char) :
    readJStringAux (fuel + 1) ('\\' :: '\\' :: T) =
      consCharResult '\\' (readJStringAux fuel T) := rfl

theorem readJ_esc8 (fuel : Nat) (T : List Char) :
    readJStringAux (fuel + 1) ('\\' :: 'b' :: T) =
      consCharResult '\x08' (readJStringAux fuel T) := rfl

theorem readJ_escf (fuel : Nat) (T : List Char) :
    readJStringAux (fuel + 1) ('\\' :: 'f' :: T) =
      consCharResult '\x0c' (readJStringAux fuel T) := rfl

theorem readJ_escn (fuel : Nat) (T : List Char) :
    readJStringAux (fuel + 1) ('\\' :: 'n' :: T) =
      consCharResult '\n' (readJStringAux fuel T) := rfl

theorem readJ_escr (fuel : Nat) (T : List Char) :
    readJStringAux (fuel + 1) ('\\' :: 'r' :: T) =
      consCharResult '\r' (readJStringAux fuel T) := rfl

theorem readJ_esct (fuel : Nat) (T : List Char) :
    readJStringAux (fuel + 1) ('\\' :: 't' :: T) =
      consCharResult '\t' (readJStringAux fuel T) := rfl

theorem readJ_lit (fuel : Nat) (c : Char) (T : List Char)
    (h1 : ¬ c = '"') (h2 : ¬ c = '\\') :
    readJStringAux (fuel + 1) (c :: T) = consCharResult c (readJStringAux fuel T) := by
  simp only [readJStringAux, if_neg h1, if_neg h2]

theorem readJ_esc_u (fuel : Nat) (T : List Char) :
    readJStringAux (fuel + 1) ('\\' :: 'u' :: T) =
      match readHex4 T with
      | none => none
      | some hr =>
        if 0xD800 ≤ hr.1 ∧ hr.1 < 0xDC00 then
          match hr.2 with
          | b1 :: b2 :: r4 =>
            if b1 = '\\' ∧ b2 = 'u' then
              match readHex4 r4 with
              | none => none
              | some lr =>
                if 0xDC00 ≤ lr.1 ∧ lr.1 < 0xE000 then
                  consCharResult
                    (Char.ofNat (0x10000 + (hr.1 - 0xD800) * 0x400 + (lr.1 - 0xDC00)))
                    (readJStringAux fuel lr.2)
                else none
            else none
          | _ => none
        else consCharResult (Char.ofNat hr.1) (readJStringAux fuel hr.2) := rfl

theorem readJ_u_single (fuel : Nat) (n : Nat) (R : List Char)
    (hn : n < 65536) (hrange : ¬ (0xD800 ≤ n ∧ n < 0xDC00)) :
    readJStringAux (fuel + 1) ('\\' :: 'u' :: (hex4 n ++ R)) =
      consCharResult (Char.ofNat n) (readJStringAux fuel R) := by
  rw [readJ_esc_u, readHex4_hex4 n hn R]
  simp only [if_neg hrange]

theorem readJ_u_pair (fuel : Nat) (h l : Nat) (R : List Char)
    (hh : h < 65536) (hl : l < 65536)
    (hhr : 0xD800 ≤ h ∧ h < 0xDC00) (hlr : 0xDC00 ≤ l ∧ l < 0xE000) :
    readJStringAux (fuel + 1) ('\\' :: 'u' :: (hex4 h ++ '\\' :: 'u' :: (hex4 l ++ R))) =
      consCharResult (Char.ofNat (0x10000 + (h - 0xD800) * 0x400 + (l - 0xDC00)))
        (readJStringAux fuel R) := by
  have e2 := readHex4_hex4 l hl R
  rw [readJ_esc_u, readHex4_hex4 h hh]
  simp [hhr, hlr, e2]

theorem escapeList_length_ge (s : List Char) : s.length ≤ (escapeList s).length := by
  induction s with
  | nil => simp [escapeList]
  | cons c cs ih =>
    have hc : 1 ≤ (escapeChar c).length := by
      unfold escapeChar
      repeat' split
      all_goals simp [hex4]
    simp only [escapeList, List.length_append, List.length_cons]
    omega

theorem readJString_escape (s : List Char) : ∀ (rest : List Char) (fuel : Nat),
    s.length < fuel →
    readJStringAux fuel (escapeList s ++ '"' :: rest) = some (s, rest) := by
  induction s with
  | nil =>
    intro rest fuel h
    obtain ⟨f, rfl⟩ : ∃ f, fuel = f + 1 := ⟨fuel - 1, by omega⟩
    simpa [escapeList] using readJ_quote f rest
  | cons c cs ih =>
    intro rest fuel h
    obtain ⟨f, rfl⟩ : ∃ f, fuel = f + 1 := ⟨fuel - 1, by omega⟩
    have hf : cs.length < f := by simp at h; omega
    have hrec := ih rest f hf
    simp only [escapeList, List.append_assoc]
    by_cases h1 : c = '"'
    · subst h1
      rw [show escapeChar '"' = ['\\', '"'] from by decide]
      simp only [List.cons_append, List.nil_append]
      rw [readJ_escq, hrec]
      rfl
    by_cases h2 : c = '\\'
    · subst h2
      rw [show escapeChar '\\' = ['\\', '\\'] from by decide]
      simp only [List.cons_append, List.nil_append]
      rw [readJ_escb, hrec]
      rfl
    by_cases h3 : c = '\x08'
    · subst h3
      rw [show escapeChar '\x08' = ['\\', 'b'] from by decide]
      simp only [List.cons_append, List.nil_append]
      rw [readJ_esc8, hrec]
      rfl
    by_cases h4 : c = '\x0c'
    · subst h4
      rw [show escapeChar '\x0c' = ['\\', 'f'] from by decide]
      simp only [List.cons_append, List.nil_append]
      rw [readJ_escf, hrec]
      rfl
    by_cases h5 : c = '\n'
    · subst h5
      rw [show escapeChar '\n' = ['\\', 'n'] from by decide]
      simp only [List.cons_append, List.nil_append]
      rw [readJ_escn, hrec]
      rfl
    by_cases h6 : c = '\r'
    · subst h6
      rw [show escapeChar '\r' = ['\\', 'r'] from by decide]
      simp only [List.cons_append, List.nil_append]
      rw [readJ_escr, hrec]
      rfl
    by_cases h7 : c = '\t'
    · subst h7
      rw [show escapeChar '\t' = ['\\', 't'] from by decide]
      simp only [List.cons_append, List.nil_append]
      rw [readJ_esct, hrec]
      rfl
    have hval : c.toNat < 0xd800 ∨ 0xdfff < c.toNat ∧ c.toNat < 0x110000 := c.valid
    by_cases h8 : 0x20 ≤ c.toNat ∧ c.toNat ≤ 0x7e
    · rw [show escapeChar c = [c] from by
        unfold escapeChar
        rw [if_neg h1, if_neg h2, if_neg h3, if_neg h4, if_neg h5, if_neg h6, if_neg h7,
          if_pos h8]]
      simp only [List.cons_append, List.nil_append]
      rw [readJ_lit f c _ h1 h2, hrec]
      rfl
    by_cases h9 : c.toNat < 0x10000
    · rw [show escapeChar c = '\\' :: 'u' :: hex4 c.toNat from by
        unfold escapeChar
        rw [if_neg h1, if_neg h2, if_neg h3, if_neg h4, if_neg h5, if_neg h6, if_neg h7,
          if_neg h8, if_pos h9]]
      simp only [List.cons_append]
      rw [readJ_u_single f c.toNat _ h9 (by omega), hrec, Char.ofNat_toNat]
      rfl
    · rw [show escapeChar c =
          '\\' :: 'u' :: hex4 (0xD800 + (c.toNat - 0x10000) / 0x400) ++
            '\\' :: 'u' :: hex4 (0xDC00 + (c.toNat - 0x10000) % 0x400) from by
        unfold escapeChar
        rw [if_neg h1, if_neg h2, if_neg h3, if_neg h4, if_neg h5, if_neg h6, if_neg h7,
          if_neg h8, if_neg h9]]
      simp only [List.cons_append, List.append_assoc]
      have hlt : c.toNat < 0x110000 := by omega
      have hd : (c.toNat - 0x10000) / 0x400 ≤ 0x3FF := by omega
      have hm : (c.toNat - 0x10000) % 0x400 < 0x400 := Nat.mod_lt _ (by norm_num)
      rw [readJ_u_pair f _ _ _ (by omega) (by omega) (by omega) (by omega)]
      rw [show 0x10000 + (0xD800 + (c.toNat - 0x10000) / 0x400 - 0xD800) * 0x400 +
          (0xDC00 + (c.toNat - 0x10000) % 0x400 - 0xDC00) = c.toNat from by omega]
      rw [hrec, Char.ofNat_toNat]
      rfl

/-! ### Round-trip of the conversation serialization -/

theorem expects_append (p rest : List Char) : expects p (p ++ rest) = some rest := by
  induction p with
  | nil => rfl
  | cons c cs ih => simp [expects, ih]

theorem parseMsg_dumps (m : Msg) (rest : List Char) :
    parseMsg (dumpsMsgL m ++ rest) = some (m, rest) := by
  have hs : ∀ R : List Char,
      m.sender.data.length < (escapeList m.sender.data ++ '"' :: R).length := by
    intro R
    have := escapeList_length_ge m.sender.data
    simp only [List.length_append, List.length_cons]
    omega
  have hc : ∀ R : List Char,
      m.content.data.length < (escapeList m.content.data ++ '"' :: R).length := by
    intro R
    have := escapeList_length_ge m.content.data
    simp only [List.length_append, List.length_cons]
    omega
  unfold parseMsg dumpsMsgL
  simp only [List.append_assoc, List.cons_append]
  rw [expects_append]
  simp only [Option.bind]
  rw [readJString_escape m.sender.data _ _ (hs _)]
  simp only [Option.bind]
  rw [expects_append]
  simp only [Option.bind]
  rw [readJString_escape m.content.data _ _ (hc _)]
  simp only [Option.bind]
  rw [expects_append]

theorem dumpsMsgL_length_pos (m : Msg) : 1 ≤ (dumpsMsgL m).length := by
  unfold dumpsMsgL
  simp only [List.length_append, List.length_cons]
  have : 1 ≤ itemHeadL.length := by decide
  omega

theorem dumpsListL_length_ge (m : Msg) (ms : List Msg) :
    ms.length + 1 ≤ (dumpsListL m ms).length := by
  induction ms generalizing m with
  | nil => simpa [dumpsListL] using dumpsMsgL_length_pos m
  | cons m2 ms ih =>
    have h1 := dumpsMsgL_length_pos m
    have h2 := ih m2
    simp only [dumpsListL, List.length_append, List.length_cons]
    omega

theorem parseItems_dumpsList (ms : List Msg) : ∀ (m : Msg) (fuel : Nat),
    ms.length < fuel →
    parseItems fuel (dumpsListL m ms ++ ['\n', ']']) = some (m :: ms) := by
  induction ms with
  | nil =>
    intro m fuel h
    obtain ⟨f, rfl⟩ : ∃ f, fuel = f + 1 := ⟨fuel - 1, by omega⟩
    show parseItems (f + 1) (dumpsMsgL m ++ ['\n', ']']) = some [m]
    unfold parseItems
    rw [parseMsg_dumps]
    rfl
  | cons m2 ms ih =>
    intro m fuel h
    obtain ⟨f, rfl⟩ : ∃ f, fuel = f + 1 := ⟨fuel - 1, by omega⟩
    have hf : ms.length < f := by simp at h; omega
    show parseItems (f + 1)
      ((dumpsMsgL m ++ ',' :: '\n' :: dumpsListL m2 ms) ++ ['\n', ']']) = _
    rw [List.append_assoc, List.cons_append, List.cons_append]
    unfold parseItems
    rw [parseMsg_dumps]
    show Option.map (fun ms2 => m :: ms2)
      (parseItems f (dumpsListL m2 ms ++ ['\n', ']'])) = some (m :: m2 :: ms)
    rw [ih m2 f hf]
    rfl

/-- Deserializing a dumped conversation gives back exactly the recorded
message list: the serialization is lossless on senders, contents and order. -/
theorem deserialize_dumps (msgs : List Msg) :
    deserializeConversation (dumpsConversation msgs) = some msgs := by
  cases msgs with
  | nil => rfl
  | cons m ms =>
    show deserializeConversation
      (String.mk ('[' :: '\n' :: (dumpsListL m ms ++ '\n' :: [']']))) = some (m :: ms)
    unfold deserializeConversation
    simp only
    rw [if_pos trivial]
    have hne : ¬ (('\n' : Char) = ']' ∧ dumpsListL m ms ++ '\n' :: [']'] = []) := by
      rintro ⟨h1, -⟩
      exact absurd h1 (by decide)
    rw [if_neg hne, if_pos trivial]
    have hlen : ms.length < (dumpsListL m ms ++ '\n' :: [']']).length := by
      have := dumpsListL_length_ge m ms
      simp only [List.length_append, List.length_cons, List.length_nil]
      omega
    have := parseItems_dumpsList ms m _ hlen
    simpa using this

/-! ### Artifact extraction in generate_usmle_vignette -/

/-- Python truthiness of the `initial_vignette` / `final_vignette` variables:
`None` and the empty string are falsy. -/
def pyFalsy (o : Option String) : Prop := o = none ∨ o = some ""

instance (o : Option String) : Decidable (pyFalsy o) := by
  unfold pyFalsy
  infer_instance

/-- One step of the extraction loop of `generate_usmle_vignette`:
`if msg["sender"] == "Vignette-Maker" and not initial_vignette: ...`
`elif msg["sender"] == "Show-Vignette": ...` (display side effects dropped). -/
def processMsg (acc : Option String × Option String) (m : Msg) :
    Option String × Option String :=
  if m.sender = "Vignette-Maker" ∧ pyFalsy acc.1 then (some m.content, acc.2)
  else if m.sender = "Show-Vignette" then (acc.1, some m.content)
  else acc

/-- `generate_usmle_vignette` on a finished conversation: scan the recorded
messages for the initial and final vignettes, substitute the sentinels for
falsy results, and serialize the conversation with `json.dumps(..., indent=2)`. -/
def generate_usmle_vignette (msgs : List Msg) : String × String × String :=
  let r := msgs.foldl processMsg (none, none)
  ((if pyFalsy r.1 then "No initial vignette found." else r.1.getD ""),
   (if pyFalsy r.2 then "No final vignette found." else r.2.getD ""),
   dumpsConversation msgs)

/-- The outcome of the AutoGen run inside the `try` of
`generate_usmle_vignette`: either the recorded message list, or the text of
a raised exception. -/
inductive RunOutcome where
  | ok (msgs : List Msg)
  | exn (err : String)

/-- `generate_usmle_vignette` including its `except` branch, which returns
`(str(e), "", json.dumps(\x7b"error": str(e)\x7d))`. -/
def generate_result : RunOutcome → String × String × String
  | RunOutcome.ok msgs => generate_usmle_vignette msgs
  | RunOutcome.exn e => (e, "", dumpsErrorObj e)

/-- Content of the last message with the given sender, if any
(the spec's "last Message whose speaker role is Presenter"). -/
def lastContentBySender (s : String) : List Msg → Option String
  | [] => none
  | m :: rest =>
    match lastContentBySender s rest with
    | some c => some c
    | none => if m.sender = s then some m.content else none

/-- Content of the first message with the given sender, if any
(the spec's "first Message whose speaker role is Generator"). -/
def firstContentBySender (s : String) : List Msg → Option String
  | [] => none
  | m :: rest => if m.sender = s then some m.content else firstContentBySender s rest

/-- Content of the first message with the given sender whose content is
non-empty, if any: what the truthiness test in the code actually selects. -/
def firstNonemptyContentBySender (s : String) : List Msg → Option String
  | [] => none
  | m :: rest =>
    if m.sender = s ∧ m.content ≠ "" then some m.content
    else firstNonemptyContentBySender s rest

theorem processMsg_snd (acc : Option String × Option String) (m : Msg) :
    (processMsg acc m).2 = if m.sender = "Show-Vignette" then some m.content else acc.2 := by
  unfold processMsg
  by_cases hb1 : m.sender = "Vignette-Maker" ∧ pyFalsy acc.1
  · rw [if_pos hb1, if_neg (by rw [hb1.1]; decide)]
  · rw [if_neg hb1]
    by_cases hb2 : m.sender = "Show-Vignette"
    · rw [if_pos hb2, if_pos hb2]
    · rw [if_neg hb2, if_neg hb2]

theorem foldl_processMsg_snd (msgs : List Msg) :
    ∀ acc : Option String × Option String,
    (msgs.foldl processMsg acc).2 =
      match lastContentBySender "Show-Vignette" msgs with
      | some c => some c
      | none => acc.2 := by
  induction msgs with
  | nil => intro acc; rfl
  | cons m rest ih =>
    intro acc
    show (rest.foldl processMsg (processMsg acc m)).2 = _
    rw [ih (processMsg acc m)]
    show _ = (match (match lastContentBySender "Show-Vignette" rest with
      | some c => some c
      | none => if m.sender = "Show-Vignette" then some m.content else none) with
      | some c => some c
      | none => acc.2)
    rcases hlast : lastContentBySender "Show-Vignette" rest with - | c
    · rw [processMsg_snd]
      by_cases hm : m.sender = "Show-Vignette"
      · rw [if_pos hm, if_pos hm]
      · rw [if_neg hm, if_neg hm]
    · rfl

theorem foldl_processMsg_fst_stable (msgs : List Msg) :
    ∀ acc : Option String × Option String, ¬ pyFalsy acc.1 →
    (msgs.foldl processMsg acc).1 = acc.1 := by
  induction msgs with
  | nil => intro acc _; rfl
  | cons m rest ih =>
    intro acc hacc
    show (rest.foldl processMsg (processMsg acc m)).1 = acc.1
    have hstep : (processMsg acc m).1 = acc.1 := by
      unfold processMsg
      rw [if_neg (fun hb => hacc hb.2)]
      by_cases hb2 : m.sender = "Show-Vignette"
      · rw [if_pos hb2]
      · rw [if_neg hb2]
    rw [ih (processMsg acc m) (by rw [hstep]; exact hacc), hstep]

theorem foldl_processMsg_fst (msgs : List Msg) :
    ∀ acc : Option String × Option String, pyFalsy acc.1 →
    match firstNonemptyContentBySender "Vignette-Maker" msgs with
    | some c => (msgs.foldl processMsg acc).1 = some c
    | none => pyFalsy (msgs.foldl processMsg acc).1 := by
  induction msgs with
  | nil => intro acc hacc; exact hacc
  | cons m rest ih =>
    intro acc hacc
    show match (if m.sender = "Vignette-Maker" ∧ m.content ≠ ""
        then some m.content else firstNonemptyContentBySender "Vignette-Maker" rest) with
      | some c => (rest.foldl processMsg (processMsg acc m)).1 = some c
      | none => pyFalsy (rest.foldl processMsg (processMsg acc m)).1
    by_cases hvm : m.sender = "Vignette-Maker"
    · have hstep : (processMsg acc m).1 = some m.content := by
        unfold processMsg
        rw [if_pos ⟨hvm, hacc⟩]
      by_cases hcont : m.content = ""
      · rw [if_neg (fun hb => hb.2 hcont)]
        have : pyFalsy (processMsg acc m).1 := by
          rw [hstep, hcont]
          exact Or.inr rfl
        exact ih (processMsg acc m) this
      · rw [if_pos ⟨hvm, hcont⟩]
        show (rest.foldl processMsg (processMsg acc m)).1 = some m.content
        rw [foldl_processMsg_fst_stable rest (processMsg acc m)
          (by rw [hstep]; rintro (h | h) <;> simp at h; exact hcont h), hstep]
    · have hstep : (processMsg acc m).1 = acc.1 := by
        unfold processMsg
        rw [if_neg (fun hb => hvm hb.1)]
        by_cases hb2 : m.sender = "Show-Vignette"
        · rw [if_pos hb2]
        · rw [if_neg hb2]
      rw [if_neg (fun hb => hvm hb.1)]
      have := ih (processMsg acc m) (by rw [hstep]; exact hacc)
      exact this

theorem firstNonempty_ne_empty (s : String) (msgs : List Msg) (c : String)
    (h : firstNonemptyContentBySender s msgs = some c) : c ≠ "" := by
  induction msgs with
  | nil => simp [firstNonemptyContentBySender] at h
  | cons m rest ih =>
    unfold firstNonemptyContentBySender at h
    by_cases hb : m.sender = s ∧ m.content ≠ ""
    · rw [if_pos hb] at h
      cases h
      exact hb.2
    · rw [if_neg hb] at h
      exact ih h

/-- What the code computes as the initial vignette field. -/
theorem generate_fst_eq (msgs : List Msg) :
    (generate_usmle_vignette msgs).1 =
      match firstNonemptyContentBySender "Vignette-Maker" msgs with
      | some c => c
      | none => "No initial vignette found." := by
  unfold generate_usmle_vignette
  have H := foldl_processMsg_fst msgs (none, none) (Or.inl rfl)
  rcases hfc : firstNonemptyContentBySender "Vignette-Maker" msgs with - | c
  · rw [hfc] at H
    simp only [if_pos H]
  · rw [hfc] at H
    have hne : c ≠ "" := firstNonempty_ne_empty _ _ _ hfc
    have hnpf : ¬ pyFalsy (some c) := by
      rintro (h | h)
      · simp at h
      · simp at h
        exact hne h
    simp only [H, Option.getD_some, if_neg hnpf]

/-- What the code computes as the final vignette field. -/
theorem generate_snd_eq (msgs : List Msg) :
    (generate_usmle_vignette msgs).2.1 =
      match lastContentBySender "Show-Vignette" msgs with
      | some c => if c = "" then "No final vignette found." else c
      | none => "No final vignette found." := by
  unfold generate_usmle_vignette
  have H := foldl_processMsg_snd msgs (none, none)
  rcases hlast : lastContentBySender "Show-Vignette" msgs with - | c
  · rw [hlast] at H
    simp only
    rw [if_pos (by rw [H]; exact Or.inl rfl)]
  · rw [hlast] at H
    simp only
    by_cases hc : c = ""
    · rw [if_pos (by rw [H, hc]; exact Or.inr rfl), if_pos hc]
    · rw [if_neg (by rw [H]; rintro (h | h) <;> simp at h; exact hc h), H, if_neg hc]
      rfl

/-! ### The configured group chat -/

/-- The agent roster of the `autogen.GroupChat`, in source order. -/
def groupchat_agents : List String :=
  ["User_proxy", "Vignette-Maker", "Content-Checker", "Format-Checker",
   "Vignette-Labeler", "Show-Vignette"]

/-- `max_round=15` in the `autogen.GroupChat` configuration. -/
def groupchat_max_round : Nat := 15

/-- `timeout: 120` in `llm_config`: the per-call timeout handed to the
completion client. -/
def llm_config_timeout : Nat := 120

/-- The kickoff prompt built from the topic in `generate_usmle_vignette`. -/
def vignettePrompt (topic : String) : String :=
  "Let\x27s create a USMLE STEP 1 clinical vignette about " ++ topic ++
  ". Each agent will contribute their expertise:\n\n" ++
  "1. Vignette-Maker: Start by creating an initial draft\n" ++
  "2. Content-Checker: Check neurological accuracy\n" ++
  "3. Format-Checker: Assess NBME standards compliance\n" ++
  "4. Vignette-Labeler: Classify the content\n" ++
  "5. Show-Vignette: Present the final improved version\n\n" ++
  "Vignette-Maker, please begin by creating a vignette about this topic."

/-- The conversation loop as configured by the repository:
`speaker_selection_method="round_robin"` cycles through `groupchat_agents`
in order starting after the seeding `User_proxy`; the round budget
`max_round=15` (counting the seed message) bounds the loop; the manager's
default termination predicate (a message whose content is exactly the
literal `TERMINATE`) is the only content-based stop — the repository
registers no other termination check.  `reply k s` abstracts the completion
text of speaker `s` at turn `k`. -/
def runLoop (reply : Nat → String → String) : Nat → Nat → List Msg
  | 0, _ => []
  | fuel + 1, k =>
    let s := groupchat_agents.getD ((k + 1) % groupchat_agents.length) ""
    let m : Msg := ⟨s, reply k s⟩
    if m.content = "TERMINATE" then [m] else m :: runLoop reply fuel (k + 1)

/-- The loop's internal transcript of one group-chat run: the seed prompt
sent by `user_proxy.initiate_chat`, followed by the round-robin turns.
What reaches `st.session_state.messages` is only the subset of this
transcript sent through the Streamlit agent subclasses — see
`recordedMessages`: the Vignette-Labeler's turns are never recorded. -/
def runGroupChat (topic : String) (reply : Nat → String → String) : List Msg :=
  ⟨"User_proxy", vignettePrompt topic⟩ :: runLoop reply (groupchat_max_round - 1) 0

/-- The agents whose `send` is overridden (`StreamlitUserProxyAgent`,
`StreamlitAssistantAgent`) to call `update_chat_display`: every roster
member except the Vignette-Labeler, which is constructed as a plain
`GPTAssistantAgent` with no overridden `send`. -/
def streamlit_agents : List String :=
  ["User_proxy", "Vignette-Maker", "Content-Checker", "Format-Checker", "Show-Vignette"]

/-- The messages of a run transcript that actually reach
`st.session_state.messages`: only sends by the Streamlit subclasses call
`update_chat_display`, so the Vignette-Labeler's turns are absent from the
recorded conversation that `generate_usmle_vignette` scans and serializes. -/
def recordedMessages (transcript : List Msg) : List Msg :=
  transcript.filter (fun m => streamlit_agents.contains m.sender)

theorem agents_adjacent_ne (k : Nat) :
    groupchat_agents.getD (k % groupchat_agents.length) "" ≠
      groupchat_agents.getD ((k + 1) % groupchat_agents.length) "" := by
  have hlen : groupchat_agents.length = 6 := rfl
  rw [hlen]
  have hr : k % 6 < 6 := Nat.mod_lt _ (by norm_num)
  have hshift : (k + 1) % 6 = (k % 6 + 1) % 6 := by omega
  rw [hshift]
  set r := k % 6 with hrdef
  interval_cases r <;> decide

theorem runLoop_chain (reply : Nat → String → String) :
    ∀ (fuel k : Nat) (prev : Msg),
    prev.sender = groupchat_agents.getD (k % groupchat_agents.length) "" →
    List.Chain' (fun a b : Msg => a.sender ≠ b.sender) (prev :: runLoop reply fuel k) := by
  intro fuel
  induction fuel with
  | zero => intro k prev _; simp [runLoop]
  | succ f ih =>
    intro k prev hprev
    have hne : prev.sender ≠ groupchat_agents.getD ((k + 1) % groupchat_agents.length) "" := by
      rw [hprev]
      exact agents_adjacent_ne k
    simp only [runLoop]
    split
    · exact List.chain'_cons.mpr ⟨hne, List.chain'_singleton _⟩
    · exact List.chain'_cons.mpr ⟨hne, ih (k + 1) _ rfl⟩

theorem runLoop_length_le (reply : Nat → String → String) :
    ∀ (fuel k : Nat), (runLoop reply fuel k).length ≤ fuel := by
  intro fuel
  induction fuel with
  | zero => intro k; simp [runLoop]
  | succ f ih =>
    intro k
    simp only [runLoop]
    split
    · simp
    · have := ih (k + 1)
      simp only [List.length_cons]
      omega

theorem runLoop_noterm_length (reply : Nat → String → String)
    (h : ∀ k s, reply k s ≠ "TERMINATE") :
    ∀ (fuel k : Nat), (runLoop reply fuel k).length = fuel := by
  intro fuel
  induction fuel with
  | zero => intro k; rfl
  | succ f ih =>
    intro k
    simp only [runLoop]
    rw [if_neg (h k _)]
    have := ih (k + 1)
    simp only [List.length_cons]
    omega

theorem runLoop_noterm_map (reply : Nat → String → String)
    (h : ∀ k s, reply k s ≠ "TERMINATE") :
    ∀ (fuel k : Nat), (runLoop reply fuel k).map Msg.sender =
      (runLoop (fun _ _ => "") fuel k).map Msg.sender := by
  intro fuel
  induction fuel with
  | zero => intro k; rfl
  | succ f ih =>
    intro k
    simp only [runLoop]
    rw [if_neg (h k _), if_neg (by decide : ¬ ("" = "TERMINATE"))]
    simp only [List.map_cons]
    rw [ih (k + 1)]

/-! ### Streamlit page control flow (app.py / authentication.py) -/

/-- The session keys set by `main` and managed by `authentication.py`. -/
structure SessionState where
  logged_in : Bool
  username : Option String
  user_id : Option Nat
deriving DecidableEq

/-- `is_user_logged_in()`: `st.session_state.get("logged_in", False)`. -/
def is_user_logged_in (s : SessionState) : Bool := s.logged_in

/-- `get_current_user()`: `(user_id, username)` from the session state. -/
def get_current_user (s : SessionState) : Option Nat × Option String :=
  (s.user_id, s.username)

/-- Observable effects of one render of the generate-vignette page. -/
inductive AppEvent where
  | warning (text : String)
  | info (text : String)
  | generate_call (topic : String)
  | save_call (user_id : Option Nat) (topic init_v final_v conv : String)
  | success (text : String)
deriving DecidableEq

/-- `show_generate_vignette_page()`: the trace of effects for one render,
given the entered topic, whether the Generate button was pressed, and the
generator function (display `st.subheader`/`st.text_area` calls are not
recorded).  `if not topic` is the Python truthiness test on the string. -/
def show_generate_vignette_page (sess : SessionState) (topic : String)
    (pressed : Bool) (gen : String → String × String × String) : List AppEvent :=
  if pressed then
    if topic = "" then [AppEvent.warning "Please enter a topic before generating."]
    else
      let r := gen topic
      [AppEvent.info "Generating a multi-agent vignette. Please wait...",
       AppEvent.generate_call topic,
       AppEvent.save_call (get_current_user sess).1 topic r.1 r.2.1 r.2.2,
       AppEvent.success "Vignette saved to your account!"]
  else []

/-- The `"Generate Vignette"` branch of `main()`: the page only renders for
a logged-in session, otherwise a warning is shown. -/
def main_generate_choice (sess : SessionState) (topic : String)
    (pressed : Bool) (gen : String → String × String × String) : List AppEvent :=
  if is_user_logged_in sess then show_generate_vignette_page sess topic pressed gen
  else [AppEvent.warning "Please log in to generate vignettes."]

/-! ### SQLite persistence (db.py) -/

/-- One row of the `vignettes` table. -/
structure VignetteRow where
  id : Nat
  user_id : Nat
  topic : String
  initial_vignette : String
  final_vignette : String
  conversation : String
deriving DecidableEq

/-- The `vignettes` table: the rows in insertion order together with the
next `AUTOINCREMENT` value for the `id` primary key. -/
structure DB where
  nextId : Nat
  rows : List VignetteRow
deriving DecidableEq

/-- `init_db()` on a fresh database: no rows, `AUTOINCREMENT` starts at 1. -/
def init_db : DB := ⟨1, []⟩

/-- `save_vignette(user_id, topic, init_vig, final_vig, conv_json)`:
`INSERT INTO vignettes ...` assigns the next autoincrement id. -/
def save_vignette (db : DB) (user_id : Nat)
    (topic init_vig final_vig conv_json : String) : DB :=
  ⟨db.nextId + 1,
   db.rows ++ [⟨db.nextId, user_id, topic, init_vig, final_vig, conv_json⟩]⟩

/-- The projection of the `SELECT id, topic, initial_vignette,
final_vignette, conversation` column list. -/
def rowSelect (r : VignetteRow) : Nat × String × String × String × String :=
  (r.id, r.topic, r.initial_vignette, r.final_vignette, r.conversation)

/-- `get_user_vignettes(user_id)`: `SELECT ... WHERE user_id=? ORDER BY id
DESC`, modelled as filtering the table and sorting by descending id. -/
def get_user_vignettes (db : DB) (user_id : Nat) :
    List (Nat × String × String × String × String) :=
  (List.insertionSort (fun a b : VignetteRow => b.id ≤ a.id)
    (db.rows.filter (fun r => r.user_id == user_id))).map rowSelect

/-- Database states reachable through `init_db` and `save_vignette`. -/
inductive DBReachable : DB → Prop
  | init : DBReachable init_db
  | save (db : DB) (user_id : Nat) (topic init_vig final_vig conv_json : String) :
      DBReachable db → DBReachable (save_vignette db user_id topic init_vig final_vig conv_json)

/-- Invariant maintained by the code: ids are strictly increasing in
insertion order and below the next autoincrement value. -/
def dbWF (db : DB) : Prop :=
  db.rows.Pairwise (fun a b => a.id < b.id) ∧ ∀ r ∈ db.rows, r.id < db.nextId

theorem reachable_wf {db : DB} (h : DBReachable db) : dbWF db := by
  induction h with
  | init => exact ⟨List.Pairwise.nil, by simp [init_db]⟩
  | save db uid t i f c hdb ih =>
    obtain ⟨hp, hb⟩ := ih
    constructor
    · show (db.rows ++ [_]).Pairwise _
      rw [List.pairwise_append]
      refine ⟨hp, List.pairwise_singleton _ _, ?_⟩
      intro a ha b hbmem
      simp only [List.mem_singleton] at hbmem
      subst hbmem
      exact hb a ha
    · intro r hr
      show r.id < db.nextId + 1
      rcases List.mem_append.mp hr with hr | hr
      · exact Nat.lt_succ_of_lt (hb r hr)
      · simp only [List.mem_singleton] at hr
        subst hr
        exact Nat.lt_succ_self _

theorem orderedInsert_last {r : VignetteRow → VignetteRow → Prop} [DecidableRel r]
    (a : VignetteRow) (l : List VignetteRow) (h : ∀ b ∈ l, ¬ r a b) :
    l.orderedInsert r a = l ++ [a] := by
  induction l with
  | nil => rfl
  | cons b l ih =>
    rw [List.orderedInsert, if_neg (h b (List.mem_cons_self b l))]
    rw [ih (fun x hx => h x (List.mem_cons_of_mem b hx))]
    rfl

theorem insertionSort_desc_of_increasing (l : List VignetteRow)
    (h : l.Pairwise (fun a b => a.id < b.id)) :
    List.insertionSort (fun a b : VignetteRow => b.id ≤ a.id) l = l.reverse := by
  induction l with
  | nil => rfl
  | cons a l ih =>
    rw [List.insertionSort, ih (List.Pairwise.of_cons h)]
    have hlt : ∀ b ∈ l, a.id < b.id := (List.pairwise_cons.mp h).1
    rw [orderedInsert_last a l.reverse (fun b hb => by
      have := hlt b (List.mem_reverse.mp hb)
      omega)]
    rw [List.reverse_cons]

/-! ### Spec-side data model for the serialization claim -/

/-- Modelled from the spec: the Message data model of the specification,
carrying `sequenceNumber`, `speakerId`, `content` and `timestamp`.  The
code's recorded messages (`Msg`) carry no sequence number and no timestamp
field; this type exists to state the losslessness claim over the spec's
fields. -/
structure SpecMessage where
  sequenceNumber : Nat
  speakerId : String
  content : String
  timestamp : Nat
deriving DecidableEq

/-- Recording a sequence of spec-level messages through
`update_chat_display`: only speaker and content survive. -/
def recordAll (l : List SpecMessage) : List Msg :=
  l.foldl (fun acc sm => update_chat_display acc sm.speakerId sm.content) []

/-! ### Claim theorems -/

/-- C1 counterexample: a transcript whose last (and only) Show-Vignette
message has empty content.  The claim as stated demands `finalVersion = ""`
(the content of that last Presenter message), but the code's truthiness
test replaces the empty string with the sentinel. -/
theorem C1_counterexample :
    lastContentBySender "Show-Vignette" [⟨"Show-Vignette", ""⟩] = some "" ∧
    (generate_usmle_vignette [⟨"Show-Vignette", ""⟩]).2.1 = "No final vignette found." ∧
    "No final vignette found." ≠ "" := by
  decide

/-- C1 (amended): `finalVersion` equals the content of the last
`Show-Vignette` message when that content is non-empty; when there is no
`Show-Vignette` message, or the last one has empty content, it equals the
sentinel `"No final vignette found."`; extraction never crashes (it is a
total function). -/
theorem C1_final_version (msgs : List Msg) :
    (generate_usmle_vignette msgs).2.1 =
      match lastContentBySender "Show-Vignette" msgs with
      | some c => if c = "" then "No final vignette found." else c
      | none => "No final vignette found." :=
  generate_snd_eq msgs

/-- C2 counterexample: the first Vignette-Maker message has empty content
and a later one has content `"v2"`.  The claim as stated demands
`initialVersion = ""` (content of the first Generator message), but the
truthiness test `not initial_vignette` lets the later message overwrite
it, so the code returns `"v2"`. -/
theorem C2_counterexample :
    firstContentBySender "Vignette-Maker"
      [⟨"Vignette-Maker", ""⟩, ⟨"Vignette-Maker", "v2"⟩] = some "" ∧
    (generate_usmle_vignette
      [⟨"Vignette-Maker", ""⟩, ⟨"Vignette-Maker", "v2"⟩]).1 = "v2" := by
  decide

/-- C2 (amended): `initialVersion` equals the content of the first
`Vignette-Maker` message with non-empty content; when no `Vignette-Maker`
message has non-empty content it equals the sentinel
`"No initial vignette found."`; extraction never crashes. -/
theorem C2_initial_version (msgs : List Msg) :
    (generate_usmle_vignette msgs).1 =
      match firstNonemptyContentBySender "Vignette-Maker" msgs with
      | some c => c
      | none => "No initial vignette found." :=
  generate_fst_eq msgs

/-- C3 counterexample: with every reply empty, the configured loop still
terminates (with the full `max_round = 15` transcript) although no
Show-Vignette message has any content, let alone well-formed content, and
extraction falls back to the sentinel.  So termination does not require a
well-formed Presenter message: the code has no such termination check. -/
theorem C3_counterexample :
    (runGroupChat "a topic" (fun _ _ => "")).length = groupchat_max_round ∧
    (∀ m ∈ runGroupChat "a topic" (fun _ _ => ""),
      m.sender = "Show-Vignette" → m.content = "") ∧
    (generate_usmle_vignette (runGroupChat "a topic" (fun _ _ => ""))).2.1 =
      "No final vignette found." := by
  refine ⟨rfl, by decide, ?_⟩
  rw [generate_snd_eq]
  decide

/-- C3 (amended): the loop applies no Presenter well-formedness check at
all.  Unless a reply is the literal `TERMINATE` (the library's default
termination sentinel, the only content-based stop), the loop always runs
the full round budget `max_round = 15` with a fixed round-robin speaker
schedule that is independent of message content; in particular the
presence or absence of a Show-Vignette message never ends the loop. -/
theorem C3_no_presenter_termination (topic : String)
    (reply : Nat → String → String) (h : ∀ k s, reply k s ≠ "TERMINATE") :
    (runGroupChat topic reply).length = groupchat_max_round ∧
    (runGroupChat topic reply).map Msg.sender =
      (runGroupChat topic (fun _ _ => "")).map Msg.sender := by
  constructor
  · unfold runGroupChat
    rw [List.length_cons, runLoop_noterm_length reply h]
    rfl
  · unfold runGroupChat
    simp only [List.map_cons]
    rw [runLoop_noterm_map reply h]

/-- C3 witness: the amended claim applied to a concrete non-terminating
reply function. -/
theorem C3_witness :
    (runGroupChat "memory loss" (fun _ _ => "reply text")).length = groupchat_max_round ∧
    (runGroupChat "memory loss" (fun _ _ => "reply text")).map Msg.sender =
      (runGroupChat "memory loss" (fun _ _ => "")).map Msg.sender :=
  C3_no_presenter_termination "memory loss" (fun _ _ => "reply text")
    (fun _ _ => (by decide : ("reply text" : String) ≠ "TERMINATE"))

/-- C4 counterexample: two spec-level transcripts differing only in a
timestamp are distinct, yet the code records only sender and content and
serializes them identically — the serialization is not lossless on the
spec's four Message fields (timestamps are never recorded; sequence
numbers survive only implicitly as list order). -/
theorem C4_counterexample :
    ([⟨1, "Vignette-Maker", "draft", 10⟩] : List SpecMessage) ≠
      [⟨1, "Vignette-Maker", "draft", 11⟩] ∧
    dumpsConversation (recordAll [⟨1, "Vignette-Maker", "draft", 10⟩]) =
      dumpsConversation (recordAll [⟨1, "Vignette-Maker", "draft", 11⟩]) := by
  refine ⟨?_, rfl⟩
  decide

/-- C4 (amended): the serialization `json.dumps(messages, indent=2)` is
lossless on what the code records — every message's sender and content, in
order (sequence recoverable from position) — and it round-trips:
deserializing reconstructs exactly the recorded message list.  Timestamps
are not part of the recorded messages. -/
theorem C4_serialization_roundtrip (msgs : List Msg) :
    deserializeConversation (dumpsConversation msgs) = some msgs :=
  deserialize_dumps msgs

/-- C5: no-repeat-speaker.  In every transcript the configured group chat
produces (round-robin over the six distinct agents, seeded by User_proxy),
adjacent messages always have different speakers; the roster has six
agents, so the single-agent waiver of the claim is vacuous here. -/
theorem C5_no_repeat_speaker (topic : String) (reply : Nat → String → String) :
    List.Chain' (fun a b : Msg => a.sender ≠ b.sender) (runGroupChat topic reply) :=
  runLoop_chain reply (groupchat_max_round - 1) 0 _ rfl

/-- C6 counterexample: a run's transcript contains Vignette-Labeler turns
(round-robin selects it twice in 14 turns), but the recorded conversation —
the input from which `generate_usmle_vignette` builds its returned and
saved conversation JSON — contains none of them, and that JSON is not the
serialization of the full transcript: transcript data is silently dropped. -/
theorem C6_counterexample :
    (∃ m ∈ runGroupChat "t" (fun _ _ => "text"), m.sender = "Vignette-Labeler") ∧
    (∀ m ∈ recordedMessages (runGroupChat "t" (fun _ _ => "text")),
      m.sender ≠ "Vignette-Labeler") ∧
    (generate_usmle_vignette
        (recordedMessages (runGroupChat "t" (fun _ _ => "text")))).2.2 ≠
      dumpsConversation (runGroupChat "t" (fun _ _ => "text")) := by
  refine ⟨by decide, by decide, ?_⟩
  intro hc
  have h1 : deserializeConversation
      (dumpsConversation (recordedMessages (runGroupChat "t" (fun _ _ => "text")))) =
      some (recordedMessages (runGroupChat "t" (fun _ _ => "text"))) :=
    deserialize_dumps _
  rw [show (generate_usmle_vignette
        (recordedMessages (runGroupChat "t" (fun _ _ => "text")))).2.2 =
      dumpsConversation (recordedMessages (runGroupChat "t" (fun _ _ => "text")))
      from rfl] at hc
  rw [hc, deserialize_dumps] at h1
  have hlen := congrArg (fun o : Option (List Msg) => (o.getD []).length) h1
  simp only [Option.getD_some] at hlen
  exact absurd hlen (by decide)

/-- C6 (amended): every generate call returns a triple: the loop is bounded
by `max_round = 15` messages, the per-call timeout is configured at 120,
and the exception path returns an explicit failure triple.  The
conversation field is lossless only on the *recorded* messages (those sent
through the Streamlit subclasses): it deserializes back to exactly the
recorded list, and the recorded part of any transcript contains no
Vignette-Labeler message — that agent's turns are silently dropped from
the returned and saved conversation. -/
theorem C6_bounded_total (topic : String) (reply : Nat → String → String) :
    (runGroupChat topic reply).length ≤ groupchat_max_round ∧
    llm_config_timeout = 120 ∧
    (∀ e : String, generate_result (RunOutcome.exn e) = (e, "", dumpsErrorObj e)) ∧
    (∀ transcript : List Msg,
      deserializeConversation
        ((generate_usmle_vignette (recordedMessages transcript)).2.2) =
        some (recordedMessages transcript)) ∧
    (∀ transcript : List Msg, ∀ m ∈ recordedMessages transcript,
      m.sender ≠ "Vignette-Labeler") := by
  refine ⟨?_, rfl, fun e => rfl, fun transcript => deserialize_dumps _, ?_⟩
  · unfold runGroupChat
    rw [List.length_cons]
    have := runLoop_length_le reply (groupchat_max_round - 1) 0
    have h15 : groupchat_max_round = 15 := rfl
    omega
  · intro transcript m hm heq
    have hcont := (List.mem_filter.mp hm).2
    rw [heq] at hcont
    exact absurd hcont (by decide)

/-- Whether an event runs the generator or saves an artifact. -/
def isGenerateOrSave : AppEvent → Bool
  | AppEvent.generate_call _ => true
  | AppEvent.save_call _ _ _ _ _ => true
  | _ => false

/-- C7: generation runs only when the caller is logged in and the topic is
non-empty; otherwise the rendered trace contains no generate call and no
save call — no turn executes and nothing is produced or saved. -/
theorem C7_preconditions (sess : SessionState) (topic : String) (pressed : Bool)
    (gen : String → String × String × String)
    (h : is_user_logged_in sess = false ∨ topic = "") :
    ∀ ev ∈ main_generate_choice sess topic pressed gen, isGenerateOrSave ev = false := by
  intro ev hev
  rcases h with h | h
  · rw [main_generate_choice, if_neg (by rw [h]; simp)] at hev
    simp only [List.mem_singleton] at hev
    subst hev
    rfl
  · rw [main_generate_choice] at hev
    by_cases hl : is_user_logged_in sess = true
    · rw [if_pos hl, show_generate_vignette_page] at hev
      by_cases hp : pressed = true
      · rw [if_pos hp, if_pos h] at hev
        simp only [List.mem_singleton] at hev
        subst hev
        rfl
      · rw [if_neg hp] at hev
        simp at hev
    · rw [if_neg hl] at hev
      simp only [List.mem_singleton] at hev
      subst hev
      rfl

/-- C7 witness: a logged-out session with a non-empty topic and the button
pressed renders only the login warning, which is neither a generate call
nor a save call. -/
theorem C7_witness :
    main_generate_choice ⟨false, none, none⟩ "Multiple Sclerosis" true
      (fun t => (t, t, t)) =
      [AppEvent.warning "Please log in to generate vignettes."] ∧
    isGenerateOrSave (AppEvent.warning "Please log in to generate vignettes.") = false := by
  refine ⟨rfl, ?_⟩
  exact C7_preconditions ⟨false, none, none⟩ "Multiple Sclerosis" true
    (fun t => (t, t, t)) (Or.inl rfl)
    (AppEvent.warning "Please log in to generate vignettes.") (by decide)

/-- C8: for every reachable database state and every owner,
`get_user_vignettes` returns exactly the owner's saved rows, most recent
(highest id, latest insertion) first: `ORDER BY id DESC` on rows whose ids
increase in insertion order is the reverse of insertion order. -/
theorem C8_list_by_owner (db : DB) (uid : Nat) (h : DBReachable db) :
    get_user_vignettes db uid =
      ((db.rows.filter (fun r => r.user_id == uid)).reverse).map rowSelect := by
  unfold get_user_vignettes
  rw [insertionSort_desc_of_increasing _
    (List.Pairwise.sublist (List.filter_sublist _) (reachable_wf h).1)]

/-- C8 witness: two saves by owner 7 are listed most recent first. -/
theorem C8_witness :
    get_user_vignettes
      (save_vignette (save_vignette init_db 7 "t1" "i1" "f1" "c1") 7 "t2" "i2" "f2" "c2") 7 =
      (((save_vignette (save_vignette init_db 7 "t1" "i1" "f1" "c1") 7 "t2" "i2" "f2" "c2").rows.filter
        (fun r => r.user_id == 7)).reverse).map rowSelect :=
  C8_list_by_owner _ 7
    (DBReachable.save _ _ _ _ _ _ (DBReachable.save _ _ _ _ _ _ DBReachable.init))

/-- C9: the exception path of `generate_usmle_vignette` returns the triple
`(str(e), "", json.dumps(\x7b"error": str(e)\x7d))`: the initial field is the
exception text, the final field is the empty string — not the sentinel —
and the conversation field is the one-key error object. -/
theorem C9_exception_path (e : String) :
    (generate_result (RunOutcome.exn e)).1 = e ∧
    (generate_result (RunOutcome.exn e)).2.1 = "" ∧
    (generate_result (RunOutcome.exn e)).2.1 ≠ "No final vignette found." ∧
    (generate_result (RunOutcome.exn e)).2.2 = dumpsErrorObj e := by
  exact ⟨rfl, rfl, (by decide : ("" : String) ≠ "No final vignette found."), rfl⟩

/-- C10: the vignette listing is owner-confined: every row passing the
`WHERE user_id=?` filter has exactly that owner, and saving a vignette
under one owner leaves every other owner's listing unchanged (two-run
noninterference). -/
theorem C10_owner_noninterference (db : DB) (a b : Nat) (t i f c : String)
    (hab : a ≠ b) :
    (∀ r ∈ (save_vignette db a t i f c).rows.filter (fun r => r.user_id == b),
      r.user_id = b) ∧
    get_user_vignettes (save_vignette db a t i f c) b = get_user_vignettes db b := by
  constructor
  · intro r hr
    have hbeq := (List.mem_filter.mp hr).2
    exact eq_of_beq hbeq
  · unfold get_user_vignettes save_vignette
    simp only [List.filter_append]
    have hcond : ¬ ((⟨db.nextId, a, t, i, f, c⟩ : VignetteRow).user_id == b) = true := by
      simp only [beq_iff_eq]
      exact hab
    rw [List.filter_cons, if_neg hcond, List.filter_nil, List.append_nil]

/-- C10 witness: a save by owner 1 is invisible to owner 2. -/
theorem C10_witness :
    (∀ r ∈ (save_vignette init_db 1 "t" "i" "f" "c").rows.filter
      (fun r => r.user_id == 2), r.user_id = 2) ∧
    get_user_vignettes (save_vignette init_db 1 "t" "i" "f" "c") 2 =
      get_user_vignettes init_db 2 :=
  C10_owner_noninterference init_db 1 2 "t" "i" "f" "c" (by decide)
